import Mathlib

/-!
Shallow embedding of the retrieval engine of the Scheme-Saathi repository
(src/rag/vector_store.py and src/rag/rag_engine.py), with exact rational
arithmetic standing in for Python floats.  External collaborators (the
OpenAI embedding/chat endpoints, the wall clock, and the random fallback
vector) are passed in as explicit parameters.
-/

set_option allowUnsafeReducibility true
set_option maxRecDepth 100000
attribute [local semireducible] Rat.add Rat.mul Rat.sub Rat.inv Rat.div

/-- Python scalar values as they occur in scheme metadata and filters. -/
inductive PyScalar where
  | str (s : String)
  | int (n : Int)
deriving DecidableEq, Repr

/-- Python values stored in document metadata / filter dictionaries:
either a scalar or a flat list of scalars (the repository only ever uses
flat lists, e.g. a list of admissible category strings). -/
inductive PyVal where
  | scalar (v : PyScalar)
  | vlist (l : List PyScalar)
deriving DecidableEq, Repr

/-- Shorthand for a string-valued Python value. -/
def PyVal.s (x : String) : PyVal := PyVal.scalar (PyScalar.str x)

/-- A Python dict with string keys, modelled as an insertion-ordered
association list with unique keys. -/
abbrev Metadata := List (String × PyVal)

/-- Dict lookup: the value stored under a key, if present. -/
def dictFind {β : Type} (m : List (String × β)) (k : String) : Option β :=
  match m with
  | [] => none
  | kv :: rest => if kv.1 = k then some kv.2 else dictFind rest k

/-- Dict assignment `m[k] = v`: replaces the value in place if the key is
present (keeping its position, as Python dicts do) and appends otherwise. -/
def dictInsert {β : Type} (m : List (String × β)) (k : String) (v : β) :
    List (String × β) :=
  match m with
  | [] => [(k, v)]
  | kv :: rest => if kv.1 = k then (k, v) :: rest else kv :: dictInsert rest k v

/-- Python `dict.update`: iterate the other dict and assign each entry. -/
def dictUpdate {β : Type} (base upd : List (String × β)) : List (String × β) :=
  upd.foldl (fun m kv => dictInsert m kv.1 kv.2) base

/-- Substring containment, Python `needle in hay` on strings (an empty
needle is contained in everything). -/
def strContains (hay needle : String) : Bool :=
  decide (List.IsInfix needle.toList hay.toList)

/-- Python `str.lower()` (character-level, so that concrete instances
evaluate in the kernel). -/
def strLower (s : String) : String := String.mk (s.toList.map Char.toLower)

/-- Take the first `n` characters of a string. -/
def strTake (s : String) (n : Nat) : String := String.mk (s.toList.take n)

/-- Join a list of strings with a separator. -/
def strJoin (sep : String) : List String → String
  | [] => ""
  | [x] => x
  | x :: xs => x ++ sep ++ strJoin sep xs

/-- Split a list of characters at every whitespace character (keeping
empty pieces, exactly like `String.split`). -/
def splitWsGo : List Char → List Char → List String
  | [], acc => [String.mk acc.reverse]
  | c :: cs, acc =>
    if c.isWhitespace then String.mk acc.reverse :: splitWsGo cs []
    else splitWsGo cs (c :: acc)

/-- Split a string at whitespace characters. -/
def splitWs (s : String) : List String := splitWsGo s.toList []

/-- Python `repr` of a scalar (single quotes around strings). -/
def pyReprScalar : PyScalar → String
  | .str s => "\x27" ++ s ++ "\x27"
  | .int n => toString n

/-- Python `str()` of a value (strings shown bare at top level, lists shown
with bracketed reprs of their elements). -/
def pyStrVal : PyVal → String
  | .scalar (.str s) => s
  | .scalar (.int n) => toString n
  | .vlist l => "[" ++ strJoin ", " (l.map pyReprScalar) ++ "]"

/-- Python `repr` of a value (elements of dicts and lists are shown with
quotes around strings). -/
def pyReprVal : PyVal → String
  | .scalar v => pyReprScalar v
  | .vlist l => "[" ++ strJoin ", " (l.map pyReprScalar) ++ "]"

/-- Python `str()` of a dict with string keys. -/
def pyStrDict (m : Metadata) : String :=
  "\x7b" ++
    strJoin ", "
      (m.map (fun kv => "\x27" ++ kv.1 ++ "\x27: " ++ pyReprVal kv.2)) ++
  "\x7d"

/-- Python `str()` of an optional dict (`None` prints as `"None"`). -/
def pyStrOptMeta : Option Metadata → String
  | none => "None"
  | some m => pyStrDict m

/-- Python `str.title()`: the first letter of each alphabetic run is
upper-cased and the rest lower-cased. -/
def pyTitleGo : List Char → Bool → List Char
  | [], _ => []
  | c :: cs, newWord =>
    if c.isAlpha then
      (if newWord then c.toUpper else c.toLower) :: pyTitleGo cs false
    else
      c :: pyTitleGo cs true

/-- Python `str.title()` on a whole string. -/
def pyTitle (s : String) : String := String.mk (pyTitleGo s.toList true)

/-- Python `s.split()`: split on whitespace runs, dropping empty pieces. -/
def pyWords (s : String) : List String :=
  (splitWs s).filter (fun w => w ≠ "")

/-- The word set `set(s.lower().split())`, as a duplicate-free list. -/
def pyWordSet (s : String) : List String := (pyWords (strLower s)).dedup

/-- Size of the set intersection of the lower-cased whitespace-split word
sets of two strings (duplicates never count twice). -/
def nameOverlap (a b : String) : Nat :=
  ((pyWordSet a).inter (pyWordSet b)).length

/-- Sum of squares of a rational vector. -/
def sumSq (v : List ℚ) : ℚ := (v.map (fun x => x * x)).sum

/-- Dot product of two rational vectors. -/
def dot (u v : List ℚ) : ℚ := (List.zipWith (fun a b => a * b) u v).sum

/-- Largest `k ≤ m` with `k * k ≤ n` (structural countdown, so that
concrete instances evaluate in the kernel). -/
def sqrtDown (n : Nat) : Nat → Nat
  | 0 => 0
  | m + 1 => if (m + 1) * (m + 1) ≤ n then m + 1 else sqrtDown n m

/-- Integer square root by linear scan. -/
def natSqrtLin (n : Nat) : Nat := sqrtDown n n

/-- Exact rational square root: returns `r` with `r * r = q` when such a
rational exists, and `0` otherwise. -/
def sqrtExact (q : ℚ) : ℚ :=
  let a := natSqrtLin q.num.toNat
  let b := natSqrtLin q.den
  if (a : Int) * a = q.num ∧ b * b = q.den then Rat.divInt a b else 0

/-- Model of `np.linalg.norm` under exact arithmetic: the L2 norm when it
is a rational number, `0` otherwise (the irrational case is excluded by
hypothesis wherever a theorem depends on the norm). -/
def vecNorm (v : List ℚ) : ℚ := sqrtExact (sumSq v)

/-- L2 normalization `v / np.linalg.norm(v)` (rational division by zero
yields zero, standing in for the float `nan`/irrational cases that the
theorems exclude by hypothesis). -/
def normalizeVec (v : List ℚ) : List ℚ := v.map (fun x => x / vecNorm v)

/-- A vector whose sum of squares is a nonzero perfect rational square, so
that exact L2 normalization is defined on it. -/
def exactUnitizable (v : List ℚ) : Bool :=
  (sqrtExact (sumSq v) * sqrtExact (sumSq v) == sumSq v) && (sumSq v != 0)

/-- A government scheme document (`SchemeDocument` in vector_store.py). -/
structure SchemeDocument where
  id : String
  content : String
  metadata : Metadata
  embedding : Option (List ℚ) := none
deriving DecidableEq, Repr

/-- Exceptions raised (or claimed to be raised) by the engine.
`valueError` models Python `ValueError`; `runtimeError` models the
`RuntimeError` the FAISS bindings raise (e.g. on a zero-size search
request); `notReadyError` is the `NotReadyError` named by the
specification — the source never defines or raises it, and the
constructor exists so that statements about it can be written down. -/
inductive PyError where
  | valueError (msg : String)
  | runtimeError (msg : String)
  | notReadyError
deriving DecidableEq, Repr

/-- The FAISS-backed vector store (`VectorStore` in vector_store.py).
`indexVecs` is the flat inner-product index contents in insertion order;
`documents` is the parallel document list; `idToDoc` the id map. -/
structure VectorStore where
  embeddingDim : Nat := 1536
  indexVecs : List (List ℚ) := []
  documents : List SchemeDocument := []
  idToDoc : List (String × SchemeDocument) := []
deriving DecidableEq, Repr

/-- A freshly initialized vector store. -/
def VectorStore.init (dim : Nat := 1536) : VectorStore :=
  { embeddingDim := dim }

/-- `VectorStore.add_document`: raises `ValueError` when the document has
no embedding, otherwise normalizes the embedding, appends it to the FAISS
index and the document to the parallel structures.  The returned store is
the state after the call (unchanged when the call raised). -/
def VectorStore.addDocument (st : VectorStore) (doc : SchemeDocument) :
    Except PyError Unit × VectorStore :=
  match doc.embedding with
  | none => (.error (.valueError "Document must have an embedding"), st)
  | some e =>
    (.ok (),
     { st with
        indexVecs := st.indexVecs ++ [normalizeVec e]
        documents := st.documents ++ [doc]
        idToDoc := dictInsert st.idToDoc doc.id doc })

/-- First phase of `VectorStore.add_documents`: walk the batch collecting
normalized embeddings, raising `ValueError` at the first document without
an embedding.  No store mutation happens in this phase. -/
def prepareEmbeddings : List SchemeDocument → Except PyError (List (List ℚ))
  | [] => .ok []
  | d :: ds =>
    match d.embedding with
    | none => .error (.valueError ("Document " ++ d.id ++ " must have an embedding"))
    | some e => (prepareEmbeddings ds).map (fun rest => normalizeVec e :: rest)

/-- `VectorStore.add_documents`: validates and normalizes every embedding
first (raising at the first bad document, before any mutation), then
`np.vstack`s the batch (which raises on an empty batch) and appends
vectors and documents.  The returned store is the state after the call
(unchanged whenever the call raised). -/
def VectorStore.addDocuments (st : VectorStore) (docs : List SchemeDocument) :
    Except PyError Unit × VectorStore :=
  match prepareEmbeddings docs with
  | .error e => (.error e, st)
  | .ok embs =>
    if embs.isEmpty then
      (.error (.valueError "need at least one array to concatenate"), st)
    else
      (.ok (),
       { st with
          indexVecs := st.indexVecs ++ embs
          documents := st.documents ++ docs
          idToDoc := docs.foldl (fun m d => dictInsert m d.id d) st.idToDoc })

/-- Membership test `doc_value in value` for a list-valued filter: the
document value must equal one element exactly (a list-valued document
value is never a member, since filter lists hold scalars). -/
def pyListContains (l : List PyScalar) (dv : PyVal) : Bool :=
  match dv with
  | .scalar s => decide (s ∈ l)
  | .vlist _ => false

/-- One filter entry of `VectorStore._matches_filters`, given the document
value stored under the filtered key: list filters test exact membership,
string filters test case-insensitive substring containment of the filter
value in the stringified document value, and any other scalar is compared
by equality. -/
def filterEntryOk (docValue value : PyVal) : Bool :=
  match value with
  | .vlist l => pyListContains l docValue
  | .scalar (.str s) => strContains (strLower (pyStrVal docValue)) (strLower s)
  | .scalar (.int _) => docValue == value

/-- `VectorStore._matches_filters`: every filter entry must pass, and an
entry whose key is absent from the document metadata fails immediately. -/
def matchesFilters (doc : SchemeDocument) : Metadata → Bool
  | [] => true
  | (key, value) :: rest =>
    match dictFind doc.metadata key with
    | some docValue => filterEntryOk docValue value && matchesFilters doc rest
    | none => false

/-- Stable insertion of `x` into a list sorted descending by `key`:
`x` passes every element with a strictly larger key and lands before the
first element whose key is not larger, so earlier elements win ties. -/
def insertDescBy {α : Type} (key : α → ℚ) (x : α) : List α → List α
  | [] => [x]
  | y :: ys => if key x < key y then y :: insertDescBy key x ys else x :: y :: ys

/-- Stable sort, descending by `key` (equal keys keep their input order);
this is the behavior of both Python `list.sort(key=..., reverse=True)` and
the FAISS flat index ordering. -/
def sortDescBy {α : Type} (key : α → ℚ) : List α → List α
  | [] => []
  | x :: xs => insertDescBy key x (sortDescBy key xs)

/-- Candidate list of `faiss.IndexFlatIP.search` on one query: score
every stored vector by inner product with the query, order descending
with ties broken by insertion order, and return the first `k` as
(index, score) pairs. -/
def faissTopKList (vecs : List (List ℚ)) (q : List ℚ) (k : Nat) : List (Nat × ℚ) :=
  (sortDescBy (fun p => p.2) ((vecs.enum).map (fun p => (p.1, dot p.2 q)))).take k

/-- Model of `faiss.IndexFlatIP.search` on one query: FAISS guards the
call with an assertion that the requested count is positive
(`k > 0` in faiss 1.7.1 and later) and raises `RuntimeError` on a
zero-size request; otherwise it returns the top-`k` candidates. -/
def faissTopK (vecs : List (List ℚ)) (q : List ℚ) (k : Nat) :
    Except PyError (List (Nat × ℚ)) :=
  if k = 0 then .error (.runtimeError "Error: \x27k > 0\x27 failed")
  else .ok (faissTopKList vecs q k)

/-- The candidate count `min(k * 2, len(self.documents))` that
`VectorStore.search` requests from FAISS (over-fetch for post-filtering). -/
def searchFetchCount (k numDocs : Nat) : Nat := min (k * 2) numDocs

/-- The result-collection loop of `VectorStore.search`: walk the FAISS
candidates, skip indices out of range of the document list, skip documents
rejected by a non-empty filter dict, append survivors, and stop as soon as
`k` results are collected. -/
def searchCollect (st : VectorStore) (filters : Option Metadata) (k : Nat)
    (acc : List (SchemeDocument × ℚ)) :
    List (Nat × ℚ) → List (SchemeDocument × ℚ)
  | [] => acc.reverse
  | (idx, score) :: rest =>
    match st.documents.get? idx with
    | none => searchCollect st filters k acc rest
    | some doc =>
      let skip := match filters with
        | some f => !f.isEmpty && !matchesFilters doc f
        | none => false
      if skip then
        searchCollect st filters k acc rest
      else
        let acc2 := (doc, score) :: acc
        if k ≤ acc2.length then acc2.reverse else searchCollect st filters k acc2 rest

/-- `VectorStore.search`: normalize the query embedding, over-fetch
`min(k * 2, len(documents))` candidates from FAISS (whose zero-size
assertion propagates as an uncaught `RuntimeError` when the store is
empty), then collect up to `k` post-filter survivors. -/
def VectorStore.search (st : VectorStore) (queryEmbedding : List ℚ) (k : Nat)
    (filters : Option Metadata) :
    Except PyError (List (SchemeDocument × ℚ)) :=
  let q := normalizeVec queryEmbedding
  match faissTopK st.indexVecs q (searchFetchCount k st.documents.length) with
  | .error e => .error e
  | .ok cands => .ok (searchCollect st filters k [] cands)

/-- One formatted scheme entry of a query result (the `scheme_info` dict
built by `GovernmentSchemeRAG._rank_schemes_by_relevance`). -/
structure SchemeInfo where
  schemeId : PyVal
  schemeName : PyVal
  category : PyVal
  state : PyVal
  ministry : PyVal
  description : String
  relevanceScore : ℚ
  similarityScore : ℚ
deriving DecidableEq, Repr

/-- The `metadata` dict of a `QueryResult`: the source builds exactly one
of two literal dicts, an error dict on embedding failure or a success dict
carrying the applied filters, the result count and the OpenAI flag. -/
inductive ResultMeta where
  | errorMeta (msg : String)
  | successMeta (filtersApplied : Metadata) (totalSchemesFound : Nat)
      (openaiEnabled : Bool)
deriving DecidableEq, Repr

/-- A query result from the RAG system (`QueryResult` in rag_engine.py).
Wall-clock durations are modelled with an injected instant, so the
processing time of a pure call is 0. -/
structure QueryResult where
  query : String
  response : String
  relevantSchemes : List SchemeInfo
  confidenceScore : ℚ
  processingTime : ℚ
  metadata : ResultMeta
deriving DecidableEq, Repr

/-- Mutable state of a `GovernmentSchemeRAG` engine: the loaded vector
store, the OpenAI availability flag, and the timestamped query cache. -/
structure RAGState where
  vectorStore : VectorStore
  openaiEnabled : Bool
  queryCache : List (String × (QueryResult × ℚ)) := []
  cacheTimeout : ℚ := 3600
deriving DecidableEq, Repr

/-- The fixed region list scanned by
`GovernmentSchemeRAG._extract_query_filters`. -/
def indianStates : List String :=
  ["andhra pradesh", "arunachal pradesh", "assam", "bihar", "chhattisgarh",
   "goa", "gujarat", "haryana", "himachal pradesh", "jharkhand", "karnataka",
   "kerala", "madhya pradesh", "maharashtra", "manipur", "meghalaya", "mizoram",
   "nagaland", "odisha", "punjab", "rajasthan", "sikkim", "tamil nadu",
   "telangana", "tripura", "uttar pradesh", "uttarakhand", "west bengal",
   "delhi", "chandigarh", "dadra and nagar haveli", "daman and diu",
   "lakshadweep", "puducherry", "andaman and nicobar islands", "ladakh",
   "jammu and kashmir"]

/-- The topic-category keyword table scanned by
`GovernmentSchemeRAG._extract_query_filters`, in dict insertion order. -/
def categoryKeywords : List (String × List String) :=
  [("agriculture", ["farming", "farmer", "agriculture", "crop", "irrigation"]),
   ("education", ["education", "student", "school", "scholarship", "learning"]),
   ("health", ["health", "medical", "hospital", "doctor", "healthcare"]),
   ("employment", ["job", "employment", "skill", "training", "career"]),
   ("women", ["women", "girl", "mother", "female"]),
   ("youth", ["youth", "young", "teenager"]),
   ("senior citizens", ["senior", "elderly", "old age", "pension"]),
   ("disability", ["disability", "disabled", "differently abled"]),
   ("housing", ["house", "home", "housing", "shelter"]),
   ("business", ["business", "entrepreneur", "startup", "msme"])]

/-- `GovernmentSchemeRAG._extract_query_filters`: lower-case the query,
emit a `state_name` filter for the first listed region occurring as a
substring (then stop), and a `category` filter for the first topic whose
keyword list has any substring hit (then stop). -/
def extractQueryFilters (query : String) : Metadata :=
  let queryLower := strLower query
  let stateFilter := match indianStates.find? (fun st => strContains queryLower st) with
    | some st => [("state_name", PyVal.s (pyTitle st))]
    | none => []
  let categoryFilter :=
    match categoryKeywords.find?
        (fun ck => ck.2.any (fun kw => strContains queryLower kw)) with
    | some ck => [("category", PyVal.s (pyTitle ck.1))]
    | none => []
  stateFilter ++ categoryFilter

/-- Python `doc.metadata.get(key, "")`. -/
def metaGetD (md : Metadata) (key : String) : PyVal :=
  (dictFind md key).getD (PyVal.s "")

/-- The string content of `doc.metadata.get(key, "")` as used by the
ranker (the source immediately calls `.lower().split()` on it, which is
only meaningful when the stored value is a string; theorems about the
ranker restrict to that case via `metaStrOkB`). -/
def metaGetStr (md : Metadata) (key : String) : String :=
  match dictFind md key with
  | some (.scalar (.str s)) => s
  | _ => ""

/-- Holds when the value stored under `key` (if any) is a string, i.e.
when the source ranker would not crash reading it. -/
def metaStrOkB (md : Metadata) (key : String) : Bool :=
  match dictFind md key with
  | some (.scalar (.str _)) => true
  | none => true
  | some _ => false

/-- Python slice `content[:500] + "..."` applied only to long contents. -/
def pyDescription (content : String) : String :=
  if 500 < content.length then strTake content 500 ++ "..." else content

/-- The per-candidate step of
`GovernmentSchemeRAG._rank_schemes_by_relevance`: the relevance score is
the similarity score plus `0.1` per distinct shared lower-cased word
between the query and the scheme name, and the candidate is formatted
into a `scheme_info` record. -/
def toSchemeInfo (query : String) (docSim : SchemeDocument × ℚ) : SchemeInfo :=
  let doc := docSim.1
  let similarityScore := docSim.2
  let overlap := nameOverlap query (metaGetStr doc.metadata "scheme_name")
  let relevanceScore :=
    if 0 < overlap then similarityScore + (1 / 10 : ℚ) * overlap
    else similarityScore
  { schemeId := metaGetD doc.metadata "scheme_id"
    schemeName := metaGetD doc.metadata "scheme_name"
    category := metaGetD doc.metadata "category"
    state := metaGetD doc.metadata "state_name"
    ministry := metaGetD doc.metadata "implementing_ministry"
    description := pyDescription doc.content
    relevanceScore := relevanceScore
    similarityScore := similarityScore }

/-- `GovernmentSchemeRAG._rank_schemes_by_relevance`: format and score
every candidate, then stable-sort by relevance descending
(`list.sort(key=..., reverse=True)`). -/
def rankSchemesByRelevance (schemes : List (SchemeDocument × ℚ))
    (query : String) : List SchemeInfo :=
  sortDescBy (fun s => s.relevanceScore) (schemes.map (toSchemeInfo query))

/-- `GovernmentSchemeRAG._generate_fallback_response`: the offline
response text assembled from the top three schemes. -/
def generateFallbackResponse (query : String)
    (relevantSchemes : List SchemeInfo) : String :=
  if relevantSchemes.isEmpty then
    "I couldn\x27t find any relevant government schemes for your query. Please try rephrasing your question or contact the relevant government department."
  else
    let header := "Based on your query \x27" ++ query ++
      "\x27, here are the most relevant government schemes:\n\n"
    let body := strJoin "" (((relevantSchemes.take 3).enum).map (fun p =>
      toString (p.1 + 1) ++ ". **" ++ pyStrVal p.2.schemeName ++ "**\n" ++
      "   • Category: " ++ pyStrVal p.2.category ++ "\n" ++
      "   • State: " ++ pyStrVal p.2.state ++ "\n" ++
      "   • Ministry: " ++ pyStrVal p.2.ministry ++ "\n" ++
      "   • Description: " ++ strTake p.2.description 200 ++ "...\n\n"))
    let extra := if 3 < relevantSchemes.length then
        "Found " ++ toString relevantSchemes.length ++
          " total schemes. The above are the most relevant matches.\n"
      else ""
    header ++ body ++ extra ++
      "\nFor detailed information about eligibility and application process, please visit the official government portals or contact the implementing agencies."

/-- `GovernmentSchemeRAG._generate_response`: offline mode always uses the
fallback text; with OpenAI enabled the external chat completion outcome is
used when it succeeds (`chatOut = some text`) and the fallback otherwise.
The prompt string sent to the external model is not modelled, only the
outcome of the call. -/
def generateResponse (openaiEnabled : Bool) (chatOut : Option String)
    (query : String) (relevantSchemes : List SchemeInfo) : String :=
  if openaiEnabled then
    match chatOut with
    | some text => text
    | none => generateFallbackResponse query relevantSchemes
  else
    generateFallbackResponse query relevantSchemes

/-- `GovernmentSchemeRAG._get_query_embedding`: offline mode falls back to
a (random) demo vector and never fails; otherwise the external embedding
call either yields a vector or errors (`none`). -/
def getQueryEmbedding (openaiEnabled : Bool)
    (apiEmbed : String → Option (List ℚ)) (randomVec : List ℚ)
    (query : String) : Option (List ℚ) :=
  if !openaiEnabled then some randomVec else apiEmbed query

/-- The cache key `f"{user_query}_{max_schemes}_{str(additional_filters)}"`. -/
def queryCacheKey (userQuery : String) (maxSchemes : Nat)
    (additionalFilters : Option Metadata) : String :=
  userQuery ++ "_" ++ toString maxSchemes ++ "_" ++ pyStrOptMeta additionalFilters

/-- The cache probe of `GovernmentSchemeRAG.query`: a stored entry is
returned only while younger than the timeout; stale entries are ignored
(and left in place). -/
def cacheFresh (st : RAGState) (key : String) (now : ℚ) : Option QueryResult :=
  match dictFind st.queryCache key with
  | some (cached, ts) => if now - ts < st.cacheTimeout then some cached else none
  | none => none

/-- Python `sum(l) / len(l)`. -/
def listMean (l : List ℚ) : ℚ := l.sum / l.length

/-- `GovernmentSchemeRAG.query`: probe the cache, obtain the query
embedding (returning a degraded empty result on failure), merge inferred
and explicit filters, search the store, rank, respond, compute the
confidence score and cache the finished result.  External effects are
injected: `apiEmbed`/`chatOut` model the OpenAI calls, `randomVec` the
offline fallback vector and `now` the wall clock.  The `Except` layer
records raised exceptions; no reachable branch of this method raises. -/
def GovernmentSchemeRAG.query (st : RAGState)
    (apiEmbed : String → Option (List ℚ)) (randomVec : List ℚ)
    (chatOut : Option String) (now : ℚ) (userQuery : String)
    (maxSchemes : Nat := 10) (additionalFilters : Option Metadata := none) :
    Except PyError (QueryResult × RAGState) :=
  let cacheKey := queryCacheKey userQuery maxSchemes additionalFilters
  match cacheFresh st cacheKey now with
  | some cached => .ok (cached, st)
  | none =>
    match getQueryEmbedding st.openaiEnabled apiEmbed randomVec userQuery with
    | none =>
      .ok ({ query := userQuery
             response := "Sorry, I\x27m unable to process your query at the moment. Please try again later."
             relevantSchemes := []
             confidenceScore := 0
             processingTime := 0
             metadata := .errorMeta "Failed to generate query embedding" }, st)
    | some queryEmbedding =>
      let queryFilters := extractQueryFilters userQuery
      let queryFilters := match additionalFilters with
        | some af => if af.isEmpty then queryFilters else dictUpdate queryFilters af
        | none => queryFilters
      match st.vectorStore.search queryEmbedding maxSchemes
          (if queryFilters.isEmpty then none else some queryFilters) with
      | .error e => .error e
      | .ok searchResults =>
        let relevantSchemes := rankSchemesByRelevance searchResults userQuery
        let response := generateResponse st.openaiEnabled chatOut userQuery relevantSchemes
        let confidenceScore :=
          if relevantSchemes.isEmpty then 0
          else listMean ((relevantSchemes.take 3).map (fun s => s.similarityScore))
        let result : QueryResult :=
          { query := userQuery
            response := response
            relevantSchemes := relevantSchemes
            confidenceScore := confidenceScore
            processingTime := 0
            metadata := .successMeta queryFilters relevantSchemes.length st.openaiEnabled }
        .ok (result, { st with queryCache := dictInsert st.queryCache cacheKey (result, now) })

/-- Specification-side reading of one filter predicate entry (written from
the specification text for the Filter Evaluator): a predicate on an absent
field is never satisfied; a string predicate is satisfied iff its
lower-cased form is a substring of the lower-cased stringified field
value; a list predicate is satisfied iff the field value is exactly one
element of the list; any other scalar predicate (not mentioned by the
specification) compares by equality as the code does. -/
def specSatisfiesB (doc : SchemeDocument) (key : String) (value : PyVal) : Bool :=
  match dictFind doc.metadata key with
  | none => false
  | some fieldValue =>
    match value with
    | .scalar (.str s) => strContains (strLower (pyStrVal fieldValue)) (strLower s)
    | .vlist l => pyListContains l fieldValue
    | .scalar (.int _) => fieldValue == value

/-- Confidence as the source computes it: the mean of the similarity
scores of the first three entries of the relevance-ranked result list
(all entries when fewer than three), and 0 when there are none. -/
def rankedConfidence (results : List SchemeInfo) : ℚ :=
  if results.isEmpty then 0
  else listMean ((results.take 3).map (fun s => s.similarityScore))

/-- Confidence as the claim states it: the mean of the similarity scores
of the top three results ordered by similarity (all results when fewer
than three), and 0 when there are none. -/
def topSimConfidence (results : List SchemeInfo) : ℚ :=
  if results.isEmpty then 0
  else listMean (((sortDescBy (fun s => s.similarityScore) results).take 3).map
    (fun s => s.similarityScore))

/-- Specification-side cosine similarity of two vectors, via the exact
rational square roots of their squared norms. -/
def cosineSim (u w : List ℚ) : ℚ :=
  dot u w / (sqrtExact (sumSq u) * sqrtExact (sumSq w))

/-- Every vector currently held by the index has unit norm. -/
def storeAllUnit (st : VectorStore) : Prop :=
  ∀ v ∈ st.indexVecs, sumSq v = 1

/-- An insertion operation against the vector store: a single-document
insert or a batch insert. -/
inductive InsertOp where
  | single (d : SchemeDocument)
  | batch (ds : List SchemeDocument)

/-- The documents an insertion operation carries. -/
def opDocs : InsertOp → List SchemeDocument
  | .single d => [d]
  | .batch ds => ds

/-- Run one insertion operation, keeping the resulting store whether or
not the operation raised (a raising operation leaves the store as it
was). -/
def applyOp (st : VectorStore) (op : InsertOp) : VectorStore :=
  match op with
  | .single d => (st.addDocument d).2
  | .batch ds => (st.addDocuments ds).2

/-- Run a sequence of insertion operations. -/
def applyOps (st : VectorStore) (ops : List InsertOp) : VectorStore :=
  ops.foldl applyOp st

/-- A document whose embedding, when present, has an exactly-representable
nonzero rational norm (the regime in which exact arithmetic models the
source normalization). -/
def docGoodB (d : SchemeDocument) : Bool :=
  match d.embedding with
  | some e => exactUnitizable e
  | none => true

deriving instance DecidableEq for Except

/-- A sample document with the metadata fields the engine reads. -/
def sampleDoc (id content name : String) (emb : List ℚ) : SchemeDocument :=
  { id := id, content := content,
    metadata := [("scheme_id", PyVal.s id), ("scheme_name", PyVal.s name),
                 ("category", PyVal.s "Misc"), ("state_name", PyVal.s "Assam"),
                 ("implementing_ministry", PyVal.s "M")],
    embedding := some emb }

/-- A four-document store whose third-ranked result differs between the
similarity order and the relevance order (document D has a low similarity
but a scheme name sharing all six query words). -/
def sampleStore : VectorStore :=
  (VectorStore.init.addDocuments
    [sampleDoc "A" "contentA" "alpha" [1, 0],
     sampleDoc "B" "contentB" "beta" [12/13, 5/13],
     sampleDoc "C" "contentC" "gamma" [4/5, 3/5],
     sampleDoc "D" "contentD" "zeta omega theta kappa sigma lambda" [5/13, 12/13]]).2

/-- An offline engine over `sampleStore` with an empty cache. -/
def sampleState : RAGState := { vectorStore := sampleStore, openaiEnabled := false }

/-- A query whose six words all occur in document D's scheme name and
which triggers no region or topic filter. -/
def sampleQuery : String := "zeta omega theta kappa sigma lambda"

/-- The outcome of running `sampleQuery` against `sampleState`. -/
def sampleRun : Except PyError (QueryResult × RAGState) :=
  GovernmentSchemeRAG.query sampleState (fun _ => none) [1, 0] none 0
    sampleQuery 10 none

/-- The query result of `sampleRun` (the error branch is unreachable; its
record is arbitrary). -/
def sampleResult : QueryResult :=
  match sampleRun with
  | .ok p => p.1
  | .error _ =>
    { query := "", response := "", relevantSchemes := [], confidenceScore := 37,
      processingTime := 0, metadata := .errorMeta "unreachable" }

/-- The engine state after `sampleRun` (the error branch is unreachable). -/
def sampleStateAfter : RAGState :=
  match sampleRun with
  | .ok p => p.2
  | .error _ => sampleState

/-- An engine over `sampleStore` with OpenAI enabled and an empty cache,
so that a failing external embedding call is reachable. -/
def onlineEngine : RAGState := { vectorStore := sampleStore, openaiEnabled := true }

/-- The outcome of a query against `onlineEngine` whose embedding call
fails. -/
def onlineRun : Except PyError (QueryResult × RAGState) :=
  GovernmentSchemeRAG.query onlineEngine (fun _ => none) [1, 0] none 0
    "hello" 10 none

/-- The query result of `onlineRun` (the error branch is unreachable). -/
def onlineResult : QueryResult :=
  match onlineRun with
  | .ok p => p.1
  | .error _ =>
    { query := "", response := "", relevantSchemes := [], confidenceScore := 37,
      processingTime := 0, metadata := .errorMeta "unreachable" }

/-- The engine state after `onlineRun` (the error branch is unreachable). -/
def onlineStateAfter : RAGState :=
  match onlineRun with
  | .ok p => p.2
  | .error _ => onlineEngine

/-- An engine with no loaded index (the persisted index was absent at
construction, so the store is empty), OpenAI disabled, empty cache. -/
def emptyEngine : RAGState :=
  { vectorStore := VectorStore.init, openaiEnabled := false }

/-- The number of results of a search outcome, when it did not raise. -/
def searchResultCount (r : Except PyError (List (SchemeDocument × ℚ))) : Option Nat :=
  match r with
  | .ok results => some results.length
  | .error _ => none

theorem dictFind_dictInsert_self {β : Type} (m : List (String × β)) (k : String)
    (v : β) : dictFind (dictInsert m k v) k = some v := by
  induction m with
  | nil => simp [dictInsert, dictFind]
  | cons kv rest ih =>
    by_cases h : kv.1 = k
    · simp [dictInsert, h, dictFind]
    · simp [dictInsert, h, dictFind, ih]

theorem dictFind_dictInsert_ne {β : Type} (m : List (String × β)) (k k' : String)
    (v : β) (h : k' ≠ k) :
    dictFind (dictInsert m k v) k' = dictFind m k' := by
  induction m with
  | nil => simp [dictInsert, dictFind, Ne.symm h]
  | cons kv rest ih =>
    by_cases h2 : kv.1 = k
    · have h3 : kv.1 ≠ k' := by rw [h2]; exact Ne.symm h
      simp [dictInsert, h2, dictFind, Ne.symm h, h3]
    · have e : dictInsert (kv :: rest) k v = kv :: dictInsert rest k v := by
        simp [dictInsert, h2]
      rw [e]
      by_cases h4 : kv.1 = k'
      · simp [dictFind, h4]
      · simp [dictFind, h4, ih]

theorem dictFind_eq_none_of_not_mem {β : Type} (m : List (String × β)) (k : String)
    (h : k ∉ m.map Prod.fst) : dictFind m k = none := by
  induction m with
  | nil => rfl
  | cons kv rest ih =>
    simp only [List.map_cons, List.mem_cons] at h
    push_neg at h
    simp [dictFind, Ne.symm h.1, ih h.2]

theorem dictFind_dictUpdate_of_none {β : Type} (base upd : List (String × β))
    (k : String) (h : dictFind upd k = none) :
    dictFind (dictUpdate base upd) k = dictFind base k := by
  induction upd generalizing base with
  | nil => rfl
  | cons kv rest ih =>
    simp only [dictFind] at h
    by_cases h2 : kv.1 = k
    · simp [h2] at h
    · simp only [h2, if_false] at h
      have : dictUpdate base (kv :: rest) = dictUpdate (dictInsert base kv.1 kv.2) rest := rfl
      rw [this, ih _ h, dictFind_dictInsert_ne _ _ _ _ (fun he => h2 he.symm)]

theorem dictFind_dictUpdate {β : Type} (base upd : List (String × β)) (k : String)
    (v : β) (hnd : (upd.map Prod.fst).Nodup) (h : dictFind upd k = some v) :
    dictFind (dictUpdate base upd) k = some v := by
  induction upd generalizing base with
  | nil => simp [dictFind] at h
  | cons kv rest ih =>
    have hstep : dictUpdate base (kv :: rest) = dictUpdate (dictInsert base kv.1 kv.2) rest := rfl
    simp only [List.map_cons, List.nodup_cons] at hnd
    simp only [dictFind] at h
    by_cases h2 : kv.1 = k
    · simp only [h2, if_true] at h
      cases h
      rw [hstep, dictFind_dictUpdate_of_none _ _ _
            (dictFind_eq_none_of_not_mem _ _ (h2 ▸ hnd.1)),
          h2, dictFind_dictInsert_self]
    · simp only [h2, if_false] at h
      rw [hstep, ih _ hnd.2 h]

theorem find?_append_first {α : Type} (p : α → Bool) (pre : List α) (x : α)
    (post : List α) (hpre : ∀ a ∈ pre, p a = false) (hx : p x = true) :
    (pre ++ x :: post).find? p = some x := by
  induction pre with
  | nil => simp [List.find?, hx]
  | cons a rest ih =>
    have ha := hpre a (by simp)
    simp only [List.cons_append, List.find?, ha]
    exact ih (fun b hb => hpre b (by simp [hb]))

theorem insertDescBy_perm {α : Type} (key : α → ℚ) (x : α) (l : List α) :
    (insertDescBy key x l).Perm (x :: l) := by
  induction l with
  | nil => simp [insertDescBy]
  | cons y ys ih =>
    by_cases h : key x < key y
    · simp only [insertDescBy, h, if_true]
      exact (ih.cons y).trans (List.Perm.swap x y ys)
    · simp [insertDescBy, h]

theorem sortDescBy_perm {α : Type} (key : α → ℚ) (l : List α) :
    (sortDescBy key l).Perm l := by
  induction l with
  | nil => simp [sortDescBy]
  | cons x xs ih =>
    exact (insertDescBy_perm key x (sortDescBy key xs)).trans (ih.cons x)

theorem mem_sortDescBy {α : Type} (key : α → ℚ) (l : List α) (a : α) :
    a ∈ sortDescBy key l ↔ a ∈ l :=
  (sortDescBy_perm key l).mem_iff

theorem length_sortDescBy {α : Type} (key : α → ℚ) (l : List α) :
    (sortDescBy key l).length = l.length :=
  (sortDescBy_perm key l).length_eq

theorem insertDescBy_pairwise {α : Type} (key : α → ℚ) (x : α) (l : List α)
    (hl : l.Pairwise (fun a b => key b ≤ key a)) :
    (insertDescBy key x l).Pairwise (fun a b => key b ≤ key a) := by
  induction l with
  | nil => simp [insertDescBy]
  | cons y ys ih =>
    rcases List.pairwise_cons.mp hl with ⟨hy, hys⟩
    by_cases h : key x < key y
    · simp only [insertDescBy, h, if_true]
      refine List.pairwise_cons.mpr ⟨?_, ih hys⟩
      intro b hb
      rcases List.mem_cons.mp ((insertDescBy_perm key x ys).mem_iff.mp hb) with rfl | hb'
      · exact le_of_lt h
      · exact hy b hb'
    · simp only [insertDescBy, h, if_false]
      refine List.pairwise_cons.mpr ⟨?_, hl⟩
      intro b hb
      rcases List.mem_cons.mp hb with rfl | hb'
      · exact le_of_not_lt h
      · exact le_trans (hy b hb') (le_of_not_lt h)

theorem sortDescBy_pairwise {α : Type} (key : α → ℚ) (l : List α) :
    (sortDescBy key l).Pairwise (fun a b => key b ≤ key a) := by
  induction l with
  | nil => simp [sortDescBy]
  | cons x xs ih => exact insertDescBy_pairwise key x _ ih

theorem insertDescBy_filter_of_eq {α : Type} (key : α → ℚ) (x : α) (l : List α)
    (r : ℚ) (h : key x = r) :
    (insertDescBy key x l).filter (fun a => decide (key a = r)) =
      x :: l.filter (fun a => decide (key a = r)) := by
  induction l with
  | nil => simp [insertDescBy, List.filter_cons, h]
  | cons y ys ih =>
    by_cases h2 : key x < key y
    · have hy : decide (key y = r) = false := by
        apply decide_eq_false
        rw [← h]
        exact ne_of_gt h2
      simp only [insertDescBy, if_pos h2, List.filter_cons, hy,
        Bool.false_eq_true, if_false, ih]
    · have hx : decide (key x = r) = true := by simp [h]
      simp only [insertDescBy, if_neg h2, List.filter_cons, hx, if_true]

theorem insertDescBy_filter_of_ne {α : Type} (key : α → ℚ) (x : α) (l : List α)
    (r : ℚ) (h : ¬ (key x = r)) :
    (insertDescBy key x l).filter (fun a => decide (key a = r)) =
      l.filter (fun a => decide (key a = r)) := by
  induction l with
  | nil => simp [insertDescBy, List.filter_cons, h]
  | cons y ys ih =>
    by_cases h2 : key x < key y
    · simp only [insertDescBy, if_pos h2, List.filter_cons, ih]
    · have hx : decide (key x = r) = false := decide_eq_false h
      simp only [insertDescBy, if_neg h2, List.filter_cons, hx,
        Bool.false_eq_true, if_false]

theorem sortDescBy_filter {α : Type} (key : α → ℚ) (l : List α) (r : ℚ) :
    (sortDescBy key l).filter (fun a => decide (key a = r)) =
      l.filter (fun a => decide (key a = r)) := by
  induction l with
  | nil => rfl
  | cons x xs ih =>
    by_cases h : key x = r
    · have hx : decide (key x = r) = true := by simp [h]
      simp only [sortDescBy, insertDescBy_filter_of_eq key x _ r h, ih,
        List.filter_cons, hx, if_true]
    · have hx : decide (key x = r) = false := decide_eq_false h
      simp only [sortDescBy, insertDescBy_filter_of_ne key x _ r h, ih,
        List.filter_cons, hx, Bool.false_eq_true, if_false]

theorem specSatisfiesB_eq_filterEntryOk (doc : SchemeDocument) (key : String)
    (value dv : PyVal) (h : dictFind doc.metadata key = some dv) :
    specSatisfiesB doc key value = filterEntryOk dv value := by
  cases value with
  | scalar sc => cases sc <;> simp [specSatisfiesB, h, filterEntryOk]
  | vlist l => simp [specSatisfiesB, h, filterEntryOk]

/-- C2: a document matches a predicate set iff every predicate entry is
satisfied (conjunction), where a string predicate is satisfied iff its
lowercase form is a substring of the lowercase stringified field value, a
list predicate iff the field value is exactly one list element, a
predicate on an absent metadata field is never satisfied, and the empty
predicate set matches every document. -/
theorem matchesFilters_iff_spec (doc : SchemeDocument) (filters : Metadata) :
    (matchesFilters doc filters = true ↔
      ∀ kv ∈ filters, specSatisfiesB doc kv.1 kv.2 = true) ∧
    matchesFilters doc [] = true := by
  refine ⟨?_, rfl⟩
  induction filters with
  | nil => simp [matchesFilters]
  | cons kv rest ih =>
    obtain ⟨key, value⟩ := kv
    cases h : dictFind doc.metadata key with
    | none =>
      simp only [matchesFilters, h]
      constructor
      · intro hfalse
        cases hfalse
      · intro hall
        have h2 := hall (key, value) (by simp)
        simp only [specSatisfiesB, h] at h2
        cases h2
    | some dv =>
      simp only [matchesFilters, h, Bool.and_eq_true]
      constructor
      · rintro ⟨h1, h2⟩ kv2 hkv2
        rcases List.mem_cons.mp hkv2 with heq | hm
        · cases heq
          rw [specSatisfiesB_eq_filterEntryOk doc key value dv h]
          exact h1
        · exact ih.mp h2 kv2 hm
      · intro hall
        refine ⟨?_, ih.mpr (fun kv2 hm => hall kv2 (by simp [hm]))⟩
        rw [← specSatisfiesB_eq_filterEntryOk doc key value dv h]
        exact hall (key, value) (by simp)

theorem toSchemeInfo_similarity (q : String) (ds : SchemeDocument × ℚ) :
    (toSchemeInfo q ds).similarityScore = ds.2 := rfl

theorem toSchemeInfo_relevance (q : String) (ds : SchemeDocument × ℚ) :
    (toSchemeInfo q ds).relevanceScore = ds.2 + (1 / 10 : ℚ) *
      nameOverlap q (metaGetStr ds.1.metadata "scheme_name") := by
  unfold toSchemeInfo
  by_cases h : 0 < nameOverlap q (metaGetStr ds.1.metadata "scheme_name")
  · simp [h]
  · have h0 : nameOverlap q (metaGetStr ds.1.metadata "scheme_name") = 0 :=
      Nat.eq_zero_of_not_pos h
    simp [h, h0]

/-- C3: the ranker assigns each candidate a relevance equal to its
similarity plus 0.1 per distinct shared lower-cased word between query
and scheme name (duplicates never multiply the boost), sorts by relevance
descending with a stable sort (equal-relevance candidates keep their
pre-sort relative order, expressed through filter-invariance at every
relevance value), and every ranked result has relevance at least its
similarity. -/
theorem rankSchemes_spec (schemes : List (SchemeDocument × ℚ)) (q : String)
    (hmeta : ∀ ds ∈ schemes, metaStrOkB ds.1.metadata "scheme_name" = true) :
    (∀ r : ℚ, (rankSchemesByRelevance schemes q).filter
        (fun s => decide (s.relevanceScore = r)) =
      (schemes.map (toSchemeInfo q)).filter (fun s => decide (s.relevanceScore = r))) ∧
    (rankSchemesByRelevance schemes q).Pairwise
      (fun a b => b.relevanceScore ≤ a.relevanceScore) ∧
    (∀ s ∈ rankSchemesByRelevance schemes q, ∃ ds ∈ schemes,
      s = toSchemeInfo q ds ∧ s.similarityScore = ds.2 ∧
      s.relevanceScore = ds.2 + (1 / 10 : ℚ) *
        nameOverlap q (metaGetStr ds.1.metadata "scheme_name")) ∧
    (∀ s ∈ rankSchemesByRelevance schemes q, s.similarityScore ≤ s.relevanceScore) := by
  refine ⟨?_, ?_, ?_, ?_⟩
  · intro r
    exact sortDescBy_filter (fun s : SchemeInfo => s.relevanceScore)
      (schemes.map (toSchemeInfo q)) r
  · exact sortDescBy_pairwise (fun s : SchemeInfo => s.relevanceScore)
      (schemes.map (toSchemeInfo q))
  · intro s hs
    have hs2 : s ∈ schemes.map (toSchemeInfo q) :=
      (mem_sortDescBy (fun s : SchemeInfo => s.relevanceScore)
        (schemes.map (toSchemeInfo q)) s).mp hs
    rcases List.mem_map.mp hs2 with ⟨ds, hds, rfl⟩
    exact ⟨ds, hds, rfl, toSchemeInfo_similarity q ds, toSchemeInfo_relevance q ds⟩
  · intro s hs
    have hs2 : s ∈ schemes.map (toSchemeInfo q) :=
      (mem_sortDescBy (fun s : SchemeInfo => s.relevanceScore)
        (schemes.map (toSchemeInfo q)) s).mp hs
    rcases List.mem_map.mp hs2 with ⟨ds, hds, rfl⟩
    rw [toSchemeInfo_similarity, toSchemeInfo_relevance]
    have hnn : (0 : ℚ) ≤ (1 / 10 : ℚ) *
        nameOverlap q (metaGetStr ds.1.metadata "scheme_name") := by positivity
    linarith

theorem matchesFilters_iff_spec_witness :
    matchesFilters
        (sampleDoc "A" "contentA" "alpha" [1, 0])
        [("category", PyVal.s "misc"), ("state_name", PyVal.vlist [.str "Assam"])] = true :=
  (matchesFilters_iff_spec (sampleDoc "A" "contentA" "alpha" [1, 0])
      [("category", PyVal.s "misc"), ("state_name", PyVal.vlist [.str "Assam"])]).1.mpr
    (by decide)

theorem rankSchemes_spec_witness :
    (rankSchemesByRelevance
        [(sampleDoc "A" "cA" "alpha beta" [1, 0], 1/2),
         (sampleDoc "B" "cB" "beta gamma" [1, 0], 1/2)] "beta alpha").Pairwise
      (fun a b => b.relevanceScore ≤ a.relevanceScore) :=
  (rankSchemes_spec
      [(sampleDoc "A" "cA" "alpha beta" [1, 0], 1/2),
       (sampleDoc "B" "cB" "beta gamma" [1, 0], 1/2)] "beta alpha" (by decide)).2.1

theorem enumFrom_fst_lt {α : Type} (l : List α) (n : Nat) :
    ∀ p ∈ l.enumFrom n, p.1 < n + l.length := by
  induction l generalizing n with
  | nil => intro p hp; cases hp
  | cons x xs ih =>
    intro p hp
    rcases List.mem_cons.mp hp with rfl | hm
    · simp
    · have := ih (n + 1) p hm
      simp only [List.length_cons]
      omega

theorem faissTopKList_length (vecs : List (List ℚ)) (q : List ℚ) (k : Nat) :
    (faissTopKList vecs q k).length = min k vecs.length := by
  unfold faissTopKList
  rw [List.length_take, length_sortDescBy, List.length_map, List.enum_length]

theorem faissTopKList_fst_lt (vecs : List (List ℚ)) (q : List ℚ) (k : Nat) :
    ∀ p ∈ faissTopKList vecs q k, p.1 < vecs.length := by
  intro p hp
  unfold faissTopKList at hp
  have hp2 := List.mem_of_mem_take hp
  have hp3 := (sortDescBy_perm (fun p : Nat × ℚ => p.2) _).mem_iff.mp hp2
  rcases List.mem_map.mp hp3 with ⟨pr, hpr, rfl⟩
  simpa using enumFrom_fst_lt vecs 0 pr hpr

theorem searchCollect_length (st : VectorStore) (k : Nat) :
    ∀ (cands : List (Nat × ℚ)) (acc : List (SchemeDocument × ℚ)),
      (∀ c ∈ cands, c.1 < st.documents.length) →
      acc.length + cands.length ≤ k →
      (searchCollect st none k acc cands).length = acc.length + cands.length := by
  intro cands
  induction cands with
  | nil =>
    intro acc _ _
    simp [searchCollect]
  | cons c rest ih =>
    intro acc hbound hk
    obtain ⟨idx, score⟩ := c
    have hidx : idx < st.documents.length := hbound (idx, score) (by simp)
    have hget : st.documents.get? idx = some (st.documents.get ⟨idx, hidx⟩) :=
      List.get?_eq_get hidx
    simp only [searchCollect, hget, Bool.false_eq_true, if_false]
    simp only [List.length_cons] at hk ⊢
    by_cases hbr : k ≤ acc.length + 1
    · have hrest : rest.length = 0 := by omega
      simp only [List.length_cons, hbr, if_true, List.length_reverse,
        List.length_cons]
      omega
    · simp only [List.length_cons, hbr, if_false]
      rw [ih ((st.documents.get ⟨idx, hidx⟩, score) :: acc)
            (fun c hc => hbound c (by simp [hc]))
            (by simp only [List.length_cons]; omega)]
      simp only [List.length_cons]
      omega

/-- C6 (amended): with `N ≥ 1` documents in the index and `k > N`, an
unfiltered search raises nothing and returns exactly `N` results; the
candidate request the search places against FAISS is `min(2k, N)`.  (At
`N = 0` the zero-size FAISS request raises instead — see the
counterexample.) -/
theorem search_returns_all_when_k_exceeds (st : VectorStore) (q : List ℚ) (k : Nat)
    (hlen : st.indexVecs.length = st.documents.length)
    (hne : st.documents.length ≠ 0)
    (hk : st.documents.length < k) :
    (∃ results, st.search q k none = .ok results ∧
      results.length = st.documents.length) ∧
    searchFetchCount k st.documents.length = min (2 * k) st.documents.length := by
  constructor
  · simp only [VectorStore.search]
    have hfetch : searchFetchCount k st.documents.length = st.documents.length := by
      unfold searchFetchCount
      omega
    rw [hfetch]
    have htop : faissTopK st.indexVecs (normalizeVec q) st.documents.length =
        .ok (faissTopKList st.indexVecs (normalizeVec q) st.documents.length) := by
      unfold faissTopK
      rw [if_neg hne]
    rw [htop]
    have hlen2 : (faissTopKList st.indexVecs (normalizeVec q) st.documents.length).length =
        st.documents.length := by
      rw [faissTopKList_length, hlen, Nat.min_self]
    have hbound : ∀ c ∈ faissTopKList st.indexVecs (normalizeVec q) st.documents.length,
        c.1 < st.documents.length := by
      intro c hc
      have := faissTopKList_fst_lt st.indexVecs (normalizeVec q) st.documents.length c hc
      omega
    refine ⟨_, rfl, ?_⟩
    rw [searchCollect_length st k _ [] hbound (by rw [hlen2]; simpa using Nat.le_of_lt hk)]
    simp [hlen2]
  · unfold searchFetchCount
    rw [Nat.mul_comm]

theorem search_returns_all_when_k_exceeds_witness :
    searchResultCount (sampleStore.search [1, 0] 9 none) =
      some sampleStore.documents.length := by
  rcases (search_returns_all_when_k_exceeds sampleStore [1, 0] 9
      (by decide) (by decide) (by decide)).1 with ⟨results, hok, hlen⟩
  rw [hok]
  simp [searchResultCount, hlen]

/-- C6 (counterexample): on an index holding no documents, an unfiltered
search with `k = 3 > 0 = N` does not return 0 results — the zero-size
candidate request `min(2k, 0) = 0` trips the FAISS `k > 0` assertion and
the search raises. -/
theorem search_empty_index_counterexample :
    VectorStore.init.search [1, 0] 3 none =
      Except.error (PyError.runtimeError "Error: \x27k > 0\x27 failed") := by
  decide

theorem prepareEmbeddings_error_of_bad (docs : List SchemeDocument)
    (hbad : ∃ d ∈ docs, d.embedding = none) :
    ∃ msg, prepareEmbeddings docs = .error (.valueError msg) := by
  induction docs with
  | nil =>
    rcases hbad with ⟨d, hd, _⟩
    cases hd
  | cons d ds ih =>
    cases he : d.embedding with
    | none => exact ⟨"Document " ++ d.id ++ " must have an embedding",
        by simp [prepareEmbeddings, he]⟩
    | some e =>
      rcases hbad with ⟨d2, hd2, hd2e⟩
      rcases List.mem_cons.mp hd2 with rfl | hm
      · rw [he] at hd2e
        cases hd2e
      · rcases ih ⟨d2, hm, hd2e⟩ with ⟨msg, hmsg⟩
        exact ⟨msg, by simp [prepareEmbeddings, he, hmsg, Except.map]⟩

/-- C7: a batch insert containing a document without an embedding raises
`ValueError` and leaves the store exactly as it was — validation precedes
every mutation, so no prefix of the batch is inserted and nothing is
silently dropped. -/
theorem addDocuments_atomic_on_bad_batch (st : VectorStore)
    (docs : List SchemeDocument) (hbad : ∃ d ∈ docs, d.embedding = none) :
    ∃ msg, st.addDocuments docs = (.error (.valueError msg), st) := by
  rcases prepareEmbeddings_error_of_bad docs hbad with ⟨msg, hmsg⟩
  exact ⟨msg, by simp [VectorStore.addDocuments, hmsg]⟩

theorem addDocuments_atomic_on_bad_batch_witness :
    (sampleStore.addDocuments
      [sampleDoc "E" "cE" "epsilon" [1, 0],
       { id := "F", content := "cF", metadata := [], embedding := none }]).2 =
      sampleStore := by
  rcases addDocuments_atomic_on_bad_batch sampleStore
      [sampleDoc "E" "cE" "epsilon" [1, 0],
       { id := "F", content := "cF", metadata := [], embedding := none }]
      ⟨{ id := "F", content := "cF", metadata := [], embedding := none }, by decide, rfl⟩
    with ⟨msg, hmsg⟩
  rw [hmsg]

theorem sumSq_map_div (v : List ℚ) (c : ℚ) :
    sumSq (v.map (fun x => x / c)) = sumSq v / (c * c) := by
  induction v with
  | nil => simp [sumSq]
  | cons x xs ih =>
    simp only [List.map_cons, sumSq, List.sum_cons] at ih ⊢
    rw [ih, div_mul_div_comm, div_add_div_same]

theorem normalizeVec_unit (v : List ℚ) (h : exactUnitizable v = true) :
    sumSq (normalizeVec v) = 1 := by
  unfold exactUnitizable at h
  rw [Bool.and_eq_true, beq_iff_eq, bne_iff_ne] at h
  obtain ⟨h1, h2⟩ := h
  unfold normalizeVec vecNorm
  rw [sumSq_map_div, h1, div_self h2]

theorem prepareEmbeddings_ok_mem (docs : List SchemeDocument)
    (embs : List (List ℚ)) (h : prepareEmbeddings docs = .ok embs) :
    ∀ v ∈ embs, ∃ d ∈ docs, ∃ e, d.embedding = some e ∧ v = normalizeVec e := by
  induction docs generalizing embs with
  | nil =>
    simp only [prepareEmbeddings, Except.ok.injEq] at h
    subst h
    intro v hv
    cases hv
  | cons d ds ih =>
    cases he : d.embedding with
    | none => simp [prepareEmbeddings, he] at h
    | some e =>
      simp only [prepareEmbeddings, he] at h
      cases hd : prepareEmbeddings ds with
      | error er => rw [hd] at h; cases h
      | ok rest =>
        rw [hd] at h
        simp only [Except.map, Except.ok.injEq] at h
        subst h
        intro v hv
        rcases List.mem_cons.mp hv with rfl | hv2
        · exact ⟨d, by simp, e, he, rfl⟩
        · rcases ih rest hd v hv2 with ⟨d2, hd2, e2, he2, hv3⟩
          exact ⟨d2, by simp [hd2], e2, he2, hv3⟩

theorem storeAllUnit_applyOp (st : VectorStore) (op : InsertOp)
    (hst : storeAllUnit st) (hgood : ∀ d ∈ opDocs op, docGoodB d = true) :
    storeAllUnit (applyOp st op) := by
  cases op with
  | single d =>
    cases he : d.embedding with
    | none =>
      simp only [applyOp, VectorStore.addDocument, he]
      exact hst
    | some e =>
      simp only [applyOp, VectorStore.addDocument, he]
      intro v hv
      rcases List.mem_append.mp hv with hv2 | hv2
      · exact hst v hv2
      · have hve : v = normalizeVec e := by simpa using hv2
        subst hve
        apply normalizeVec_unit
        have hd := hgood d (by simp [opDocs])
        simpa [docGoodB, he] using hd
  | batch ds =>
    cases hprep : prepareEmbeddings ds with
    | error er =>
      simp only [applyOp, VectorStore.addDocuments, hprep]
      exact hst
    | ok embs =>
      by_cases hemp : embs.isEmpty
      · simp only [applyOp, VectorStore.addDocuments, hprep, hemp, if_true]
        exact hst
      · simp only [applyOp, VectorStore.addDocuments, hprep, hemp,
          Bool.false_eq_true, if_false]
        intro v hv
        rcases List.mem_append.mp hv with hv2 | hv2
        · exact hst v hv2
        · rcases prepareEmbeddings_ok_mem ds embs hprep v hv2 with ⟨d, hd, e, he, hve⟩
          subst hve
          apply normalizeVec_unit
          have hdg := hgood d (by simpa [opDocs] using hd)
          simpa [docGoodB, he] using hdg

theorem sqrtExact_one : sqrtExact 1 = 1 := by decide

/-- C9: after any sequence of single or batch insertions whose embeddings
have exactly-representable nonzero norms, every vector held by the index
has unit norm, and consequently the inner product of any stored vector
with a unit query vector equals their cosine similarity. -/
theorem insertions_keep_index_unit_normalized (st : VectorStore)
    (ops : List InsertOp) (hst : storeAllUnit st)
    (hgood : ∀ op ∈ ops, ∀ d ∈ opDocs op, docGoodB d = true) :
    storeAllUnit (applyOps st ops) ∧
    ∀ v ∈ (applyOps st ops).indexVecs, ∀ q, sumSq q = 1 →
      cosineSim v q = dot v q := by
  have hall : storeAllUnit (applyOps st ops) := by
    induction ops generalizing st with
    | nil => exact hst
    | cons op rest ih =>
      exact ih (applyOp st op)
        (storeAllUnit_applyOp st op hst (hgood op (by simp)))
        (fun o ho d hd => hgood o (by simp [ho]) d hd)
  refine ⟨hall, ?_⟩
  intro v hv q hq
  have hv1 : sumSq v = 1 := hall v hv
  unfold cosineSim
  rw [hv1, hq, sqrtExact_one, mul_one, div_one]

theorem insertions_keep_index_unit_normalized_witness :
    sumSq [(3 : ℚ)/5, 4/5] = 1 :=
  (insertions_keep_index_unit_normalized VectorStore.init
      [InsertOp.batch [sampleDoc "A" "cA" "alpha" [1, 0],
                       sampleDoc "B" "cB" "beta" [3, 4]],
       InsertOp.single (sampleDoc "C" "cC" "gamma" [0, 2])]
      (fun v hv => absurd hv (by simp [VectorStore.init]))
      (by decide)).1 [(3 : ℚ)/5, 4/5] (by decide)

/-- C8: the inferred predicate set holds at most one region entry and at
most one topic entry; the region scan emits the first listed region that
occurs as a substring of the lower-cased query and stops; the topic scan
emits the first topic whose keyword set has any hit and stops; and when
merging inferred with caller-supplied explicit filters, the explicit
value wins for a shared field. -/
theorem extractQueryFilters_spec (q : String) :
    ((extractQueryFilters q).countP (fun kv => kv.1 == "state_name") ≤ 1 ∧
     (extractQueryFilters q).countP (fun kv => kv.1 == "category") ≤ 1) ∧
    (∀ pre st post, indianStates = pre ++ st :: post →
      strContains (strLower q) st = true →
      (∀ s ∈ pre, strContains (strLower q) s = false) →
      dictFind (extractQueryFilters q) "state_name" = some (PyVal.s (pyTitle st))) ∧
    (∀ pre ck post, categoryKeywords = pre ++ ck :: post →
      ck.2.any (fun kw => strContains (strLower q) kw) = true →
      (∀ p ∈ pre, p.2.any (fun kw => strContains (strLower q) kw) = false) →
      dictFind (extractQueryFilters q) "category" = some (PyVal.s (pyTitle ck.1))) ∧
    (∀ (base upd : Metadata) (k : String) (v : PyVal),
      (upd.map Prod.fst).Nodup → dictFind upd k = some v →
      dictFind (dictUpdate base upd) k = some v) := by
  refine ⟨?_, ?_, ?_, ?_⟩
  · unfold extractQueryFilters
    cases hs : indianStates.find? (fun st => strContains (strLower q) st) <;>
      cases hc : categoryKeywords.find?
          (fun ck => ck.2.any (fun kw => strContains (strLower q) kw)) <;>
      simp [hs, hc, List.countP_cons, List.countP_nil]
  · intro pre st post hsplit hhit hpre
    simp only [extractQueryFilters, hsplit]
    rw [find?_append_first (fun s => strContains (strLower q) s) pre st post hpre hhit]
    simp [dictFind]
  · intro pre ck post hsplit hhit hpre
    simp only [extractQueryFilters, hsplit]
    rw [find?_append_first
          (fun ck => ck.2.any (fun kw => strContains (strLower q) kw))
          pre ck post hpre hhit]
    cases hs : indianStates.find? (fun st => strContains (strLower q) st) with
    | none => simp [hs, dictFind]
    | some st => simp [hs, dictFind]
  · intro base upd k v hnd hfind
    exact dictFind_dictUpdate base upd k v hnd hfind

theorem extractQueryFilters_spec_witness :
    dictFind (extractQueryFilters "farmer schemes in assam") "state_name" =
      some (PyVal.s "Assam") :=
  (extractQueryFilters_spec "farmer schemes in assam").2.1
    ["andhra pradesh", "arunachal pradesh"] "assam" (indianStates.drop 3)
    (by decide) (by decide) (by decide)

/-- C4: when the external embedding call errors on a cache miss, the
query does not raise: it returns a degraded result with an empty scheme
list, confidence 0, an error flag in the metadata, and an unchanged
engine state. -/
theorem query_embedding_failure_returns_degraded (st : RAGState)
    (apiEmbed : String → Option (List ℚ)) (randomVec : List ℚ)
    (chatOut : Option String) (now : ℚ) (userQuery : String) (maxSchemes : Nat)
    (additionalFilters : Option Metadata)
    (hcache : cacheFresh st (queryCacheKey userQuery maxSchemes additionalFilters)
      now = none)
    (hembed : getQueryEmbedding st.openaiEnabled apiEmbed randomVec userQuery = none) :
    GovernmentSchemeRAG.query st apiEmbed randomVec chatOut now userQuery
        maxSchemes additionalFilters =
      .ok ({ query := userQuery
             response := "Sorry, I\x27m unable to process your query at the moment. Please try again later."
             relevantSchemes := []
             confidenceScore := 0
             processingTime := 0
             metadata := .errorMeta "Failed to generate query embedding" }, st) := by
  simp only [GovernmentSchemeRAG.query, hcache, hembed]

theorem query_embedding_failure_returns_degraded_witness :
    GovernmentSchemeRAG.query onlineEngine (fun _ => none) [1, 0] none 0
        "bonjour" 10 none =
      .ok ({ query := "bonjour"
             response := "Sorry, I\x27m unable to process your query at the moment. Please try again later."
             relevantSchemes := []
             confidenceScore := 0
             processingTime := 0
             metadata := .errorMeta "Failed to generate query embedding" },
           onlineEngine) :=
  query_embedding_failure_returns_degraded onlineEngine (fun _ => none) [1, 0]
    none 0 "bonjour" 10 none (by decide) (by decide)

/-- C10: on a cache miss, an embedding failure leaves the query cache
untouched (so an identical follow-up query re-attempts the embedding call
instead of being served a cached failure), while a completed pipeline
stores its finished result under the cache key. -/
theorem degraded_results_never_cached (st : RAGState)
    (apiEmbed : String → Option (List ℚ)) (randomVec : List ℚ)
    (chatOut : Option String) (now : ℚ) (userQuery : String) (maxSchemes : Nat)
    (additionalFilters : Option Metadata)
    (hcache : cacheFresh st (queryCacheKey userQuery maxSchemes additionalFilters)
      now = none) :
    (getQueryEmbedding st.openaiEnabled apiEmbed randomVec userQuery = none →
      ∀ r st2, GovernmentSchemeRAG.query st apiEmbed randomVec chatOut now
          userQuery maxSchemes additionalFilters = .ok (r, st2) →
        st2.queryCache = st.queryCache) ∧
    (∀ e, getQueryEmbedding st.openaiEnabled apiEmbed randomVec userQuery = some e →
      ∀ r st2, GovernmentSchemeRAG.query st apiEmbed randomVec chatOut now
          userQuery maxSchemes additionalFilters = .ok (r, st2) →
        st2.queryCache = dictInsert st.queryCache
          (queryCacheKey userQuery maxSchemes additionalFilters) (r, now)) := by
  constructor
  · intro hembed r st2 hq
    simp only [GovernmentSchemeRAG.query, hcache, hembed] at hq
    cases hq
    rfl
  · intro e hembed r st2 hq
    simp only [GovernmentSchemeRAG.query, hcache, hembed] at hq
    split at hq
    · cases hq
    · cases hq
      rfl

theorem degraded_results_never_cached_witness :
    onlineStateAfter.queryCache = onlineEngine.queryCache := by
  have hq : GovernmentSchemeRAG.query onlineEngine (fun _ => none) [1, 0] none 0
      "hello" 10 none = .ok (onlineResult, onlineStateAfter) := by decide
  exact (degraded_results_never_cached onlineEngine (fun _ => none) [1, 0] none 0
      "hello" 10 none (by decide)).1 (by decide) onlineResult onlineStateAfter hq

/-- C5 (amended): the confidence score is the mean of the similarity
scores of the first three entries of the relevance-ranked result list
(of all of them when fewer than three), and 0 when the result list is
empty. -/
theorem query_confidence_eq_ranked_top3_mean (st : RAGState)
    (apiEmbed : String → Option (List ℚ)) (randomVec : List ℚ)
    (chatOut : Option String) (now : ℚ) (userQuery : String) (maxSchemes : Nat)
    (additionalFilters : Option Metadata)
    (hcache : cacheFresh st (queryCacheKey userQuery maxSchemes additionalFilters)
      now = none) :
    ∀ r st2, GovernmentSchemeRAG.query st apiEmbed randomVec chatOut now
        userQuery maxSchemes additionalFilters = .ok (r, st2) →
      r.confidenceScore = rankedConfidence r.relevantSchemes := by
  intro r st2 hq
  cases hembed : getQueryEmbedding st.openaiEnabled apiEmbed randomVec userQuery with
  | none =>
    simp only [GovernmentSchemeRAG.query, hcache, hembed] at hq
    cases hq
    rfl
  | some e =>
    simp only [GovernmentSchemeRAG.query, hcache, hembed] at hq
    split at hq
    · cases hq
    · cases hq
      rfl

theorem query_confidence_eq_ranked_top3_mean_witness :
    sampleResult.confidenceScore = rankedConfidence sampleResult.relevantSchemes := by
  have hq : GovernmentSchemeRAG.query sampleState (fun _ => none) [1, 0] none 0
      sampleQuery 10 none = .ok (sampleResult, sampleStateAfter) := by decide
  exact query_confidence_eq_ranked_top3_mean sampleState (fun _ => none) [1, 0]
    none 0 sampleQuery 10 none (by decide) sampleResult sampleStateAfter hq

/-- C5 (counterexample): on a concrete four-document store the returned
confidence is the mean over the first three relevance-ranked results
(10/13), not the mean over the top three results by similarity (59/65). -/
theorem query_confidence_counterexample :
    sampleResult.confidenceScore = 10 / 13 ∧
    topSimConfidence sampleResult.relevantSchemes = 59 / 65 ∧
    sampleResult.confidenceScore ≠ topSimConfidence sampleResult.relevantSchemes :=
  ⟨by decide, by decide, by decide⟩

theorem search_empty_documents (st : VectorStore) (hd : st.documents = [])
    (q : List ℚ) (k : Nat) (f : Option Metadata) :
    st.search q k f =
      .error (PyError.runtimeError "Error: \x27k > 0\x27 failed") := by
  unfold VectorStore.search searchFetchCount
  rw [hd]
  simp [faissTopK]

/-- C1 (amended): a query issued while no index is loaded (empty store)
never fails with the specification\x27s `NotReadyError`, which the source
neither defines nor raises.  Instead, on a cache miss: once an embedding
is obtained, the zero-size FAISS candidate request (`min(2k, 0) = 0`)
raises an uncaught `RuntimeError` that propagates to the caller; and when
the embedding step fails first, the degraded result with an empty scheme
list and confidence 0 is returned. -/
theorem query_no_index_no_notReadyError (st : RAGState)
    (apiEmbed : String → Option (List ℚ)) (randomVec : List ℚ)
    (chatOut : Option String) (now : ℚ) (userQuery : String) (maxSchemes : Nat)
    (additionalFilters : Option Metadata)
    (hdocs : st.vectorStore.documents = [])
    (hcache : cacheFresh st (queryCacheKey userQuery maxSchemes additionalFilters)
      now = none) :
    (GovernmentSchemeRAG.query st apiEmbed randomVec chatOut now userQuery
        maxSchemes additionalFilters ≠ .error PyError.notReadyError) ∧
    (∀ e, getQueryEmbedding st.openaiEnabled apiEmbed randomVec userQuery = some e →
      GovernmentSchemeRAG.query st apiEmbed randomVec chatOut now userQuery
          maxSchemes additionalFilters =
        .error (PyError.runtimeError "Error: \x27k > 0\x27 failed")) ∧
    (getQueryEmbedding st.openaiEnabled apiEmbed randomVec userQuery = none →
      ∀ r st2, GovernmentSchemeRAG.query st apiEmbed randomVec chatOut now
          userQuery maxSchemes additionalFilters = .ok (r, st2) →
        r.relevantSchemes = [] ∧ r.confidenceScore = 0) := by
  refine ⟨?_, ?_, ?_⟩
  · cases hembed : getQueryEmbedding st.openaiEnabled apiEmbed randomVec userQuery with
    | none => simp [GovernmentSchemeRAG.query, hcache, hembed]
    | some e =>
      simp [GovernmentSchemeRAG.query, hcache, hembed,
        search_empty_documents st.vectorStore hdocs]
  · intro e hembed
    simp only [GovernmentSchemeRAG.query, hcache, hembed,
      search_empty_documents st.vectorStore hdocs]
  · intro hembed r st2 hq
    simp only [GovernmentSchemeRAG.query, hcache, hembed] at hq
    cases hq
    exact ⟨rfl, rfl⟩

theorem query_no_index_no_notReadyError_witness :
    GovernmentSchemeRAG.query emptyEngine (fun _ => none) [1, 0] none 0
        "hola" 10 none =
      Except.error (PyError.runtimeError "Error: \x27k > 0\x27 failed") :=
  (query_no_index_no_notReadyError emptyEngine (fun _ => none) [1, 0] none 0
    "hola" 10 none rfl rfl).2.1 [1, 0] rfl

/-- C1 (counterexample): on an engine with no loaded index, a concrete
query does not fail with `NotReadyError`; it returns normally. -/
theorem query_no_index_counterexample :
    GovernmentSchemeRAG.query emptyEngine (fun _ => none) [1, 0] none 0
        "hello" 10 none ≠ Except.error PyError.notReadyError := by
  decide
